import Mathlib

/-!
Verification of the two command-line inference scripts in
`mqtt_marine/satelite` (the marine-condition predictor
`marine_model/predict.py` and the rogue-wave predictor
`rouge_wave_model/predict.py`).

The deterministic logic of both scripts — argument handling, CSV window
handling, the hazard classification tables, the advisory derivation, the
timestamp advance, the trace normalization and the softmax/argmax step —
is embedded shallowly below.  Opaque external artifacts (the pretrained
networks and the fitted scaler) are modelled as oracles supplied through
the environment structures: the scripts only ever call them through
`predict`/`transform`, and no claim depends on the values they return.
Physical quantities are modelled as rationals (the scripts use IEEE
doubles; every comparison appearing in the scripts is order-theoretic, so
the rational model is faithful for them), and the raw class scores of the
rogue-wave classifier are modelled as reals because the softmax uses the
exponential.
-/

/-! ### String helpers

`leadMatch pat s` holds when `s` starts with the pattern (Python
`str.startswith`), `hasSub pat s` when the pattern occurs as a contiguous
substring (Python `in`). -/

def leadMatch : List Char → List Char → Bool
  | [], _ => true
  | _ :: _, [] => false
  | p :: ps, c :: cs => p == c && leadMatch ps cs

def hasSub (pat : List Char) : List Char → Bool
  | [] => leadMatch pat []
  | c :: cs => leadMatch pat (c :: cs) || hasSub pat cs

/-- Python `needle in haystack` on strings. -/
def strHasSub (haystack needle : String) : Bool :=
  hasSub needle.toList haystack.toList

/-- Python `haystack.startswith needle`. -/
def strStarts (haystack needle : String) : Bool :=
  leadMatch needle.toList haystack.toList

/-! ### Numeric rendering helpers

These model the `f"{x:.3f}"`-style formatting of the printed lines.  The
rounding detail of IEEE formatting is abstracted to round-half-up on
rationals; no claim depends on the rendered digits. -/

/-- Floor of a rational as an integer (`q.num / q.den` with Euclidean
division, which is floor division for the positive denominator). -/
def ratFloor (q : ℚ) : ℤ := Int.ediv q.num (q.den : ℤ)

/-- Python `int(...)` applied to a float: truncation toward zero. -/
def intTrunc (q : ℚ) : ℤ := Int.tdiv q.num (q.den : ℤ)

/-- Left-pad the decimal representation of `n` with zeros to width `w`
(`%02d` / `%04d`). -/
def padZeros (w : Nat) (n : Nat) : String :=
  let s := toString n
  String.mk (List.replicate (w - s.length) '0') ++ s

/-- Fixed-point decimal rendering with `dec` fractional digits, modelling
`f"{x:.{dec}f}"`. -/
def fmtFixed (q : ℚ) (dec : Nat) : String :=
  let m : ℤ := ratFloor (q * (10 : ℚ) ^ dec + 1 / 2)
  let a : ℕ := m.natAbs
  let base : ℕ := 10 ^ dec
  let ip := a / base
  let fp := a % base
  let fstr := toString fp
  let fpad := String.mk (List.replicate (dec - fstr.length) '0') ++ fstr
  (if m < 0 then "-" else "") ++ toString ip ++
    (if dec = 0 then "" else "." ++ fpad)

/-! ### Wave hazard classification (`marine_model/predict.py`, lines 76–103)

`waveAlert` takes the predicted wave height already converted to feet and
the predicted dominant period in seconds and reproduces the `if/elif`
chain of the script verbatim. -/

def waveAlert (wvhtFt dpd : ℚ) : String :=
  if wvhtFt ≤ 5 then "Waves normal (<5 ft)"
  else if 6 ≤ wvhtFt ∧ wvhtFt ≤ 8 then
    if dpd ≤ 9 then "Small craft caution (6-8 ft, period ≤9s)"
    else "Waves normal (6-8 ft, period >9s)"
  else if 9 ≤ wvhtFt ∧ wvhtFt ≤ 11 then
    if dpd ≤ 9 then "Hazardous seas (9-11 ft, period ≤9s)"
    else if 10 ≤ dpd ∧ dpd ≤ 12 then "Small craft caution (9-11 ft, period 10-12s)"
    else "Waves normal (9-11 ft, period ≥13s)"
  else if 12 ≤ wvhtFt ∧ wvhtFt ≤ 14 then
    if dpd ≤ 11 then "Hazardous seas (12-14 ft, period ≤11s)"
    else if dpd = 12 then "Small craft caution (12-14 ft, period =12s)"
    else "Waves normal (12-14 ft, period ≥13s)"
  else if 15 ≤ wvhtFt then
    if dpd ≤ 12 then "Hazardous seas (>=15 ft, period ≤12s)"
    else "Small craft caution (>=15 ft, period ≥13s)"
  else "Unknown"

/-! ### Wind hazard classification (`marine_model/predict.py`, lines 106–115) -/

def windHurr : String := "Hurricane warning (>=64 kt)"

def windStorm : String := "Storm warning (48-63 kt)"

def windGale : String := "Gale warning (34-47 kt)"

def windSCA : String := "Small Craft Advisory (22-33 kt)"

def windNormalLabel : String := "Wind normal (<22 kt)"

def windAlert (wspdKt : ℚ) : String :=
  if 64 ≤ wspdKt then windHurr
  else if 48 ≤ wspdKt then windStorm
  else if 34 ≤ wspdKt then windGale
  else if 22 ≤ wspdKt then windSCA
  else windNormalLabel

/-! ### Advisory derivation (`marine_model/predict.py`, lines 118–123) -/

def adviceDanger : String := "⚠️ DANGER: Immediate evacuation or seek safe harbor"

def adviceCaution : String := "⚠️ CAUTION: Exercise caution"

def adviceSafe : String := "✅ SAFE"

def advice (waveLabel windLabel : String) : String :=
  if strHasSub waveLabel "Hazardous" || strStarts windLabel "Hurricane"
      || strStarts windLabel "Storm" || strStarts windLabel "Gale" then
    adviceDanger
  else if strHasSub waveLabel "Small craft caution" || strStarts windLabel "Small Craft" then
    adviceCaution
  else
    adviceSafe


/-! ### Calendar model (Python `datetime` / `timedelta` semantics)

`marine_model/predict.py` (lines 63–70) parses the last row's
`YY/MM/DD/hh/mm` fields with `datetime(...)` and adds
`timedelta(minutes=30)`.  The definitions below embed the documented
semantics of the proleptic-Gregorian `datetime` library: constructor
validation (`MINYEAR = 1`, `MAXYEAR = 9999`, month/day/hour/minute
ranges) and exact 30-minute advance (an advance past the end of year
9999 raises `OverflowError`).  `dtAbsMinutes` is the reference absolute
timeline (minutes since the calendar origin) used to state exactness. -/

def isLeap (y : ℕ) : Bool := decide ((4 ∣ y ∧ ¬(100 ∣ y)) ∨ 400 ∣ y)

def daysInMonth (leap : Bool) (m : ℕ) : ℕ :=
  if m = 2 then (if leap then 29 else 28)
  else if m = 4 ∨ m = 6 ∨ m = 9 ∨ m = 11 then 30
  else 31

/-- Days in year `y` before the first day of month `m`. -/
def daysBeforeMonth (leap : Bool) (m : ℕ) : ℕ :=
  (((List.range m).filter (fun k => 1 ≤ k)).map (daysInMonth leap)).sum

/-- Days before January 1 of year `y` counted from the calendar origin
(the closed form used by the proleptic Gregorian ordinal). -/
def daysBeforeYear (y : ℕ) : ℕ :=
  (y - 1) * 365 + (y - 1) / 4 - (y - 1) / 100 + (y - 1) / 400

structure DT where
  y : ℕ
  m : ℕ
  d : ℕ
  hh : ℕ
  mi : ℕ
deriving DecidableEq

@[simp] theorem DTmk_y (a b c d e : ℕ) : (DT.mk a b c d e).y = a := rfl

@[simp] theorem DTmk_m (a b c d e : ℕ) : (DT.mk a b c d e).m = b := rfl

@[simp] theorem DTmk_d (a b c d e : ℕ) : (DT.mk a b c d e).d = c := rfl

@[simp] theorem DTmk_hh (a b c d e : ℕ) : (DT.mk a b c d e).hh = d := rfl

@[simp] theorem DTmk_mi (a b c d e : ℕ) : (DT.mk a b c d e).mi = e := rfl

/-- The `datetime` constructor's validity conditions. -/
def validDT : DT → Bool
  | ⟨y, m, d, hh, mi⟩ =>
    decide (1 ≤ y ∧ y ≤ 9999 ∧ 1 ≤ m ∧ m ≤ 12 ∧ 1 ≤ d ∧
      d ≤ daysInMonth (isLeap y) m ∧ hh < 24 ∧ mi < 60)

/-- Proleptic Gregorian ordinal of the date. -/
def toOrdinal : DT → ℕ
  | ⟨y, m, d, _, _⟩ => daysBeforeYear y + daysBeforeMonth (isLeap y) m + d

/-- Absolute timestamp in minutes: the reference timeline. -/
def dtAbsMinutes : DT → ℕ
  | ⟨y, m, d, hh, mi⟩ =>
    ((daysBeforeYear y + daysBeforeMonth (isLeap y) m + d) * 24 + hh) * 60 + mi

theorem dtAbsMinutes_eq (dt : DT) : dtAbsMinutes dt = (toOrdinal dt * 24 + dt.hh) * 60 + dt.mi := by
  obtain ⟨y, m, d, hh, mi⟩ := dt
  rfl

/-- Calendar advance by 30 minutes with explicit carries; extensionally
equal to `datetime + timedelta(minutes=30)` on valid datetimes (proved
by `add30_abs`). -/
def add30 : DT → DT
  | ⟨y, m, d, hh, mi⟩ =>
    if mi + 30 < 60 then ⟨y, m, d, hh, mi + 30⟩
    else if hh + 1 < 24 then ⟨y, m, d, hh + 1, mi + 30 - 60⟩
    else if d + 1 ≤ daysInMonth (isLeap y) m then ⟨y, m, d + 1, 0, mi + 30 - 60⟩
    else if m + 1 ≤ 12 then ⟨y, m + 1, 1, 0, mi + 30 - 60⟩
    else ⟨y + 1, 1, 1, 0, mi + 30 - 60⟩

/-- Addition `datetime + timedelta(minutes=30)`: `none` models the
`OverflowError` raised when the result would leave the supported range
(year 9999). -/
def addMinutes30 (dt : DT) : Option DT :=
  if (add30 dt).y ≤ 9999 then some (add30 dt) else none

/-- Constructor `datetime(Y, M, D, H, Mi)`: `none` models the `ValueError` raised on
out-of-range fields. -/
def pyDatetime (Y M D H Mi : ℤ) : Option DT :=
  if 1 ≤ Y ∧ Y ≤ 9999 ∧ 1 ≤ M ∧ M ≤ 12 ∧ 1 ≤ D ∧
      D ≤ (daysInMonth (isLeap Y.toNat) M.toNat : ℤ) ∧
      0 ≤ H ∧ H < 24 ∧ 0 ≤ Mi ∧ Mi < 60 then
    some ⟨Y.toNat, M.toNat, D.toNat, H.toNat, Mi.toNat⟩
  else none

/-- Lines 63–70 of the marine script applied to already-extracted integer
fields: construct the datetime and add 30 minutes, with both the
constructor's `ValueError` and the addition's `OverflowError` caught by
the same `except` block ("Time parsing failed"). -/
def timeComp (Y M D H Mi : ℤ) : Except String DT :=
  match pyDatetime Y M D H Mi with
  | none => .error "Time parsing failed: ValueError"
  | some dt =>
    match addMinutes30 dt with
    | none => .error "Time parsing failed: OverflowError"
    | some r => .ok r

/-- Formatting of a datetime as `%Y-%m-%d %H:%M`. -/
def fmtDT (dt : DT) : String :=
  padZeros 4 dt.y ++ "-" ++ padZeros 2 dt.m ++ "-" ++ padZeros 2 dt.d ++ " " ++
    padZeros 2 dt.hh ++ ":" ++ padZeros 2 dt.mi


/-! ### Calendar lemmas -/

theorem one_le_daysInMonth (leap : Bool) (m : ℕ) : 1 ≤ daysInMonth leap m := by
  unfold daysInMonth
  split_ifs <;> omega

theorem daysBeforeMonth_one (leap : Bool) : daysBeforeMonth leap 1 = 0 := by
  cases leap <;> rfl

theorem daysBeforeMonth_step (leap : Bool) (m : ℕ) (hm : 1 ≤ m) :
    daysBeforeMonth leap (m + 1) = daysBeforeMonth leap m + daysInMonth leap m := by
  unfold daysBeforeMonth
  rw [List.range_succ, List.filter_append, List.map_append, List.sum_append]
  have h1 : List.filter (fun k => decide (1 ≤ k)) [m] = [m] := by
    simp [List.filter, hm]
  simp [h1]

theorem daysBeforeYear_step (y : ℕ) (hy : 1 ≤ y) :
    daysBeforeYear (y + 1) = daysBeforeYear y + (if isLeap y then 366 else 365) := by
  obtain ⟨n, rfl⟩ : ∃ n, y = n + 1 := ⟨y - 1, by omega⟩
  unfold daysBeforeYear isLeap
  simp only [Nat.add_sub_cancel, decide_eq_true_eq]
  split_ifs with hl
  · omega
  · omega

theorem december_days (leap : Bool) :
    daysBeforeMonth leap 12 + 31 = (if leap then 366 else 365) := by
  cases leap <;> rfl

/-- Core exactness result: on a valid datetime, the carry-based 30-minute
advance moves the absolute timestamp forward by exactly 30 minutes. -/
theorem add30_abs (dt : DT) (hv : validDT dt = true) :
    dtAbsMinutes (add30 dt) = dtAbsMinutes dt + 30 := by
  obtain ⟨y, m, d, hh, mi⟩ := dt
  simp only [validDT, decide_eq_true_eq] at hv
  obtain ⟨hy1, hy2, hm1, hm2, hd1, hd2, hhh, hmi⟩ := hv
  simp only [add30]
  split_ifs with c1 c2 c3 c4
  · simp only [dtAbsMinutes]
    omega
  · simp only [dtAbsMinutes]
    omega
  · simp only [dtAbsMinutes]
    omega
  · -- month carry: d = daysInMonth, m + 1 ≤ 12
    have hd : d = daysInMonth (isLeap y) m := by omega
    have hstep := daysBeforeMonth_step (isLeap y) m hm1
    simp only [dtAbsMinutes]
    omega
  · -- year carry: m = 12, d = 31
    have hm : m = 12 := by omega
    subst hm
    have hd : d = 31 := by
      have : daysInMonth (isLeap y) 12 = 31 := by cases isLeap y <;> rfl
      omega
    subst hd
    have hstep2 : daysBeforeYear (y + 1) = daysBeforeYear y + (daysBeforeMonth (isLeap y) 12 + 31) := by
      rw [daysBeforeYear_step y hy1, ← december_days (isLeap y)]
    have hone : daysBeforeMonth (isLeap (y + 1)) 1 = 0 := daysBeforeMonth_one _
    simp only [dtAbsMinutes, hone]
    omega

/-- The carried datetime is again valid whenever its year stays in range. -/
theorem add30_valid (dt : DT) (hv : validDT dt = true)
    (hy : (add30 dt).y ≤ 9999) : validDT (add30 dt) = true := by
  obtain ⟨y, m, d, hh, mi⟩ := dt
  simp only [validDT, decide_eq_true_eq] at hv
  obtain ⟨hy1, hy2, hm1, hm2, hd1, hd2, hhh, hmi⟩ := hv
  simp only [add30] at hy ⊢
  split_ifs at hy ⊢ with c1 c2 c3 c4
  all_goals simp only [DTmk_y] at hy
  all_goals simp only [validDT, decide_eq_true_eq]
  · exact ⟨hy1, hy2, hm1, hm2, hd1, hd2, by omega, by omega⟩
  · exact ⟨hy1, hy2, hm1, hm2, hd1, hd2, by omega, by omega⟩
  · exact ⟨hy1, hy2, hm1, hm2, by omega, c3, by omega, by omega⟩
  · refine ⟨hy1, hy2, by omega, c4, by omega, ?_, by omega, by omega⟩
    exact one_le_daysInMonth _ _
  · refine ⟨by omega, by omega, by omega, by omega, by omega, ?_, by omega, by omega⟩
    exact one_le_daysInMonth _ _

/-- A successfully constructed `datetime` is valid. -/
theorem pyDatetime_valid (Y M D H Mi : ℤ) (dt : DT)
    (h : pyDatetime Y M D H Mi = some dt) : validDT dt = true := by
  unfold pyDatetime at h
  split_ifs at h with hc
  obtain ⟨h1, h2, h3, h4, h5, h6, h7, h8, h9, h10⟩ := hc
  cases h
  simp only [validDT, decide_eq_true_eq]
  refine ⟨by omega, by omega, by omega, by omega, by omega, ?_, by omega, by omega⟩
  omega

/-! ### CSV model (marine predictor input)

A parsed CSV row is an association list from column name to value;
`none` models a missing value (pandas `NaN`).  `pd.read_csv(...).dropna()`
drops every row containing a missing value in any column;
`df[features]` selects the feature columns by name. -/

abbrev Row := List (String × Option ℚ)

/-- Name-based cell access (pandas column indexing). `none` models a
`KeyError` (column absent); `some none` a present-but-missing value. -/
def rowGet (k : String) : Row → Option (Option ℚ)
  | [] => none
  | (k', v) :: r => if k = k' then some v else rowGet k r

/-- A row with no missing value in any column (kept by `dropna`). -/
def rowComplete (r : Row) : Bool := r.all (fun kv => kv.2.isSome)

/-- Filtering `pd.read_csv(...).dropna()`: drop any row containing a missing value,
preserving file order. -/
def dropna (rows : List Row) : List Row := rows.filter rowComplete

/-- The last `n` elements of a list, in order (`.iloc[-n:]`). -/
def lastN (n : Nat) (l : List α) : List α := l.drop (l.length - n)

/-- The 19 model feature columns, in model order
(`marine_model/predict.py`, lines 32–35). -/
def features : List String :=
  ["YY", "MM", "DD", "hh", "mm", "WDIR", "WSPD", "GST", "WVHT",
   "DPD", "APD", "MWD", "PRES", "ATMP", "WTMP", "DEWP", "VIS", "TIDE", "station"]

/-- Sequence a list of optional values (`none` anywhere poisons). -/
def optList : List (Option α) → Option (List α)
  | [] => some []
  | none :: _ => none
  | some a :: t => (optList t).map (a :: ·)

/-- The feature vector of one row, by-name selection; `none` models the
`KeyError` raised by `df[features]` when a feature column is absent. -/
def rowFeatures (r : Row) : Option (List ℚ) :=
  optList (features.map (fun k => (rowGet k r).bind id))

/-- The model window: the last 24 rows, in file order, of the
`dropna`-filtered frame (`df[features].iloc[-24:]`). -/
def marineWindowRows (rows : List Row) : List Row := lastN 24 (dropna rows)

/-- The 24×19 feature matrix fed to the scaler/model. -/
def windowMatrix (rows : List Row) : Option (List (List ℚ)) :=
  optList ((marineWindowRows rows).map rowFeatures)

/-- Lines 63–70: extract the last row's `YY/MM/DD/hh/mm`, truncate with
`int(...)`, build the datetime and add 30 minutes. -/
def timeStepRow (r : Row) : Except String DT :=
  match (rowGet "YY" r).bind id, (rowGet "MM" r).bind id, (rowGet "DD" r).bind id,
      (rowGet "hh" r).bind id, (rowGet "mm" r).bind id with
  | some yy, some mo, some dd, some h, some mi =>
    timeComp (intTrunc yy) (intTrunc mo) (intTrunc dd) (intTrunc h) (intTrunc mi)
  | _, _, _, _, _ => .error "Time parsing failed: KeyError"

/-! ### Process-run model

`RunOut` records what one process run produces: the exit status, the
lines written to standard output, the lines that actually reach the
process's standard error, and — for the marine script, which reassigns
`sys.stderr` to `/dev/null` on entry (line 16) — the lines swallowed by
that redirection (`nullSink`). -/

structure RunOut where
  exitCode : Nat
  stdout : List String
  stderrLines : List String
  nullSink : List String
deriving DecidableEq

/-- Environment of one marine-predictor run.  `loadResult` and
`predictResult` are the opaque artifact oracles (model/scaler loading,
and the three inverse-scaled predictions `wvht` (m), `wspd` (m/s),
`dpd` (s)); `csvData` is the parsed CSV (`error` models a `read_csv`
exception). -/
structure MarineEnv where
  argv : List String
  loadResult : Except String Unit
  csvData : Except String (List Row)
  predictResult : Except String (ℚ × ℚ × ℚ)

def marineUsage : String := "Usage: python predict.py <data.csv>"

def marineHeader : String :=
  "time,wvht(m),wvht(ft),wave_level,wspd(m/s),wspd(kt),wind_level,dpd(s),advice,station"

/-- Lines 47–131 after the window is fixed: unit conversions,
classification, advisory, timestamp advance and data-line assembly for
the last row, with the time-parsing failure and the uncaught
station-`KeyError` short-circuiting. -/
def marineFinish (wvht wspd dpd : ℚ) (row : Row) : Except String String :=
  match timeStepRow row with
  | .error e => .error e
  | .ok nxt =>
    let wspdKt := wspd * (194384 / 100000 : ℚ)
    let wvhtFt := wvht * (328084 / 100000 : ℚ)
    let wa := waveAlert wvhtFt dpd
    let wi := windAlert wspdKt
    let adv := advice wa wi
    match (rowGet "station" row).bind id with
    | none => .error "Traceback (most recent call last): KeyError: station"
    | some st =>
      .ok (fmtDT nxt ++ "," ++ fmtFixed wvht 3 ++ "," ++ fmtFixed wvhtFt 2 ++ "," ++ wa ++ ","
             ++ fmtFixed wspd 3 ++ "," ++ fmtFixed wspdKt 2 ++ "," ++ wi ++ ","
             ++ fmtFixed dpd 3 ++ "," ++ adv ++ "," ++ toString (intTrunc st))

/-- Lines 37–61: the 24-row sufficiency check on the `dropna`-filtered
frame, the by-name feature selection, the prediction oracle, and the
extraction of the last row. -/
def marineRows (rows : List Row) (pr : Except String (ℚ × ℚ × ℚ)) : Except String String :=
  if (dropna rows).length < 24 then .error "data.csv must contain at least 24 rows" else
  match windowMatrix rows with
  | none => .error "Failed to read/process input: KeyError"
  | some _ =>
  match pr with
  | .error e => .error ("Prediction failed: " ++ e)
  | .ok (wvht, wspd, dpd) =>
  match (dropna rows).getLast? with
  | none => .error "Time parsing failed: IndexError"
  | some row => marineFinish wvht wspd dpd row

/-- Lines 24–45: artifact loading and CSV reading. -/
def marineLoaded : Except String Unit → Except String (List Row) →
    Except String (ℚ × ℚ × ℚ) → Except String String
  | .error e, _, _ => .error ("Failed to load model or scaler: " ++ e)
  | .ok _, .error e, _ => .error ("Failed to read/process input: " ++ e)
  | .ok _, .ok rows, pr => marineRows rows pr

/-- The marine predictor's `main` as a linear pipeline
(`marine_model/predict.py`): every failure short-circuits with its
diagnostic message, and only a fully successful run reaches the printed
data line (returned on success). -/
def marinePipeline : MarineEnv → Except String String
  | ⟨argv, loadResult, csvData, predictResult⟩ =>
    if argv.length ≠ 2 then .error marineUsage
    else marineLoaded loadResult csvData predictResult

/-- The marine predictor's observable run behavior.  The script's first
statement redirects `sys.stderr` to `/dev/null`, so every diagnostic —
including the usage message and the traceback of the uncaught `KeyError`
at line 127 — lands in `nullSink` and nothing ever reaches the real
standard error; output appears on stdout only at the very end of a fully
successful run (header line plus data line), with exit status 0. -/
def marineMain (env : MarineEnv) : RunOut :=
  match marinePipeline env with
  | .error e => ⟨1, [], [], [e]⟩
  | .ok line => ⟨0, [marineHeader, line], [], []⟩

/-! ### Rogue-wave predictor model (`rouge_wave_model/predict.py`) -/

/-- Arithmetic mean of a trace (`np.mean`). -/
def listMean (xs : List ℚ) : ℚ := xs.sum / (xs.length : ℚ)

/-- Population variance of a trace (`np.std` squared, `ddof = 0`).  The
script's normalization scale `4 * np.std(zdisp)` is zero exactly when
this variance is zero. -/
def traceVariance (xs : List ℚ) : ℚ :=
  ((xs.map (fun x => (x - listMean xs) ^ 2)).sum) / (xs.length : ℚ)

/-- Access into the `npz` container by key. -/
def npzGet (k : String) : List (String × List ℚ) → Option (List ℚ)
  | [] => none
  | (k', v) :: es => if k = k' then some v else npzGet k es

/-- Lines 20–25: prefer `"zdisp"`, then `"zdisp_norw"`, else the first
entry; `none` models the `IndexError` on an empty container. -/
def selectTrace (entries : List (String × List ℚ)) : Option (List ℚ) :=
  match npzGet "zdisp" entries with
  | some a => some a
  | none =>
    match npzGet "zdisp_norw" entries with
    | some a => some a
    | none => (entries.head?).map (fun e => e.2)

def rougeUsage : String := "Usage: python predict.py <npz_path>"

def rougeHeader : String := "norw_prob,rw_prob,wave_type_prediction"

/-- Environment of one rogue-predictor run.  `npzResult` is the parsed
container (`error` models an `np.load` exception); `modelLoad` the
classifier-loading oracle; `probs` the softmax-normalized class
probabilities produced by the opaque classifier on a finite
(non-degenerate) normalized trace — the softmax step itself is verified
separately on `softmaxProbs`. -/
structure RougeEnv where
  argv : List String
  npzResult : Except String (List (String × List ℚ))
  modelLoad : Except String Unit
  probs : ℚ × ℚ

/-- The three observable outcomes of a rogue-predictor run: the usage
path (message on standard output), an uncaught traceback (message on
standard error), or a printed result line. -/
inductive RougeOut where
  | usage : RougeOut
  | traceback : String → RougeOut
  | result : String → RougeOut
deriving DecidableEq

/-- The rogue predictor's `main` as a linear pipeline
(`rouge_wave_model/predict.py`).  It has no `try/except` at all: every
library failure surfaces as an uncaught traceback, and the usage check
of lines 11–13 only fires on a missing argument.  A zero-variance trace
makes the normalization scale `4*std` zero; NumPy division by zero does
not raise (it emits a `RuntimeWarning`), the non-finite values propagate
through the network and the softmax, and the script prints `nan`
probabilities with the tie-broken (`argmax` first-maximal-index) label. -/
def rougeLoad : Except String (List (String × List ℚ)) → Except String Unit →
    ℚ × ℚ → RougeOut
  | .error e, _, _ => .traceback e
  | .ok entries, modelLoad, probs =>
    match selectTrace entries with
    | none => .traceback "IndexError: list index out of range"
    | some zdisp =>
      if zdisp.length ≠ 1536 then .traceback "ValueError: cannot reshape array"
      else
        match modelLoad with
        | .error e => .traceback e
        | .ok _ =>
          if traceVariance zdisp = 0 then .result "nan,nan,non-rogue wave"
          else
            let idx : Nat := if probs.1 < probs.2 then 1 else 0
            let label := if idx = 0 then "non-rogue wave" else "rogue wave"
            .result (fmtFixed probs.1 6 ++ "," ++ fmtFixed probs.2 6 ++ "," ++ label)

def rougeSteps : RougeEnv → RougeOut
  | ⟨argv, npzResult, modelLoad, probs⟩ =>
    if argv.length < 2 then .usage
    else rougeLoad npzResult modelLoad probs

/-- The rogue predictor's observable run behavior: the usage message of
line 12 is printed to standard output (exit 1), an uncaught exception
prints its traceback to standard error (exit 1), and a completed run
prints the header and result lines to standard output (exit 0). -/
def rougeMain (env : RougeEnv) : RunOut :=
  match rougeSteps env with
  | .usage => ⟨1, [rougeUsage], [], []⟩
  | .traceback e => ⟨1, [], ["Traceback (most recent call last): " ++ e], []⟩
  | .result line => ⟨0, [rougeHeader, line], [], []⟩

/-! ### Softmax and classification over the real scores
(`rouge_wave_model/predict.py`, lines 36–42) -/

/-- Two-class softmax of the raw scores. -/
noncomputable def softmaxProbs (a b : ℝ) : ℝ × ℝ :=
  (Real.exp a / (Real.exp a + Real.exp b), Real.exp b / (Real.exp a + Real.exp b))

/-- Result of `np.argmax` over the two probabilities: first maximal index, so a tie
yields index 0. -/
noncomputable def waveTypeIdx (a b : ℝ) : ℕ :=
  if (softmaxProbs a b).1 < (softmaxProbs a b).2 then 1 else 0

/-- Line 42: the printed label. -/
noncomputable def waveTypeStr (a b : ℝ) : String :=
  if waveTypeIdx a b = 0 then "non-rogue wave" else "rogue wave"

/-! ### Column-permutation invariance toolkit (for the by-name selection) -/

/-- Name-based access is invariant under permuting a row's cells when the
column names are distinct. -/
theorem rowGet_perm (k : String) :
    ∀ {r r' : Row}, r.Perm r' → (r.map Prod.fst).Nodup → rowGet k r = rowGet k r' := by
  intro r r' h
  induction h with
  | nil => intro _; rfl
  | cons x h ih =>
    intro hnd
    obtain ⟨kx, vx⟩ := x
    rw [List.map_cons, List.nodup_cons] at hnd
    by_cases hk : k = kx
    · simp [rowGet, hk]
    · simp [rowGet, hk, ih hnd.2]
  | swap x y l =>
    intro hnd
    obtain ⟨kx, vx⟩ := x
    obtain ⟨ky, vy⟩ := y
    rw [List.map_cons, List.map_cons, List.nodup_cons] at hnd
    have hne : ky ≠ kx := by
      intro he
      exact hnd.1 (by simp [he])
    by_cases h1 : k = ky <;> by_cases h2 : k = kx
    · exact absurd (h1.symm.trans h2) hne
    · simp [rowGet, h1, h2, hne, Ne.symm hne]
    · simp [rowGet, h1, h2, hne, Ne.symm hne]
    · simp [rowGet, h1, h2, hne, Ne.symm hne]
  | trans h1 h2 ih1 ih2 =>
    intro hnd
    exact (ih1 hnd).trans (ih2 ((h1.map Prod.fst).nodup hnd))

/-- Completeness of a row is invariant under permuting its cells. -/
theorem rowComplete_perm : ∀ {r r' : Row}, r.Perm r' → rowComplete r = rowComplete r' := by
  intro r r' h
  induction h with
  | nil => rfl
  | cons x h ih => simp [rowComplete, List.all_cons] at ih ⊢; rw [ih]
  | swap x y l => simp [rowComplete, List.all_cons, Bool.and_left_comm]
  | trans h1 h2 ih1 ih2 => exact ih1.trans ih2

/-- Filtering by `dropna` respects row-wise cell permutation. -/
theorem forall2_perm_dropna :
    ∀ {l₁ l₂ : List Row}, List.Forall₂ (fun a b => a.Perm b) l₁ l₂ →
      List.Forall₂ (fun a b => a.Perm b) (dropna l₁) (dropna l₂) := by
  intro l₁ l₂ h
  induction h with
  | nil => exact List.Forall₂.nil
  | cons hr ht ih =>
    unfold dropna at ih ⊢
    simp only [List.filter_cons]
    rw [← rowComplete_perm hr]
    cases hc : rowComplete _ with
    | true => simpa using List.Forall₂.cons hr ih
    | false => simpa using ih

/-- Dropping a prefix of related lists keeps them related. -/
theorem forall2_dropN {α β : Type} {R : α → β → Prop} :
    ∀ (n : ℕ) {l₁ : List α} {l₂ : List β}, List.Forall₂ R l₁ l₂ →
      List.Forall₂ R (l₁.drop n) (l₂.drop n) := by
  intro n
  induction n with
  | zero => intro l₁ l₂ h; simpa using h
  | succ k ih =>
    intro l₁ l₂ h
    cases h with
    | nil => exact List.Forall₂.nil
    | cons hr ht => simpa using ih ht

/-- Related lists have related (and member) last elements. -/
theorem forall2_getLast {α β : Type} {R : α → β → Prop} :
    ∀ {l₁ : List α} {l₂ : List β}, List.Forall₂ R l₁ l₂ →
      (l₁.getLast? = none ∧ l₂.getLast? = none) ∨
      (∃ a b, l₁.getLast? = some a ∧ l₂.getLast? = some b ∧ R a b ∧ a ∈ l₁) := by
  intro l₁ l₂ h
  induction h with
  | nil => exact Or.inl ⟨rfl, rfl⟩
  | @cons a b t₁ t₂ hr ht ih =>
    cases ht with
    | nil => exact Or.inr ⟨a, b, rfl, rfl, hr, by simp⟩
    | @cons a' b' t₁' t₂' hr' ht' =>
      rcases ih with ⟨h1, _⟩ | ⟨x, y, hx, hy, hR, hmem⟩
      · have hs : (a' :: t₁').getLast?.isSome := by
          rw [List.getLast?_isSome]
          simp
        rw [h1] at hs
        simp at hs
      · refine Or.inr ⟨x, y, ?_, ?_, hR, by simp [hmem]⟩
        · rw [List.getLast?_cons_cons]
          exact hx
        · rw [List.getLast?_cons_cons]
          exact hy

/-- The feature vector is invariant under permuting a row's cells. -/
theorem rowFeatures_perm {r r' : Row} (h : r.Perm r') (hnd : (r.map Prod.fst).Nodup) :
    rowFeatures r = rowFeatures r' := by
  unfold rowFeatures
  have hf : (fun k => (rowGet k r).bind id) = (fun k => (rowGet k r').bind id) :=
    funext (fun k => by rw [rowGet_perm k h hnd])
  rw [hf]

/-- Mapping `rowFeatures` over row-wise-permuted windows gives equal lists. -/
theorem map_rowFeatures_perm :
    ∀ {l₁ l₂ : List Row}, List.Forall₂ (fun a b => a.Perm b) l₁ l₂ →
      (∀ r ∈ l₁, (r.map Prod.fst).Nodup) →
      l₁.map rowFeatures = l₂.map rowFeatures := by
  intro l₁ l₂ h
  induction h with
  | nil => intro _; rfl
  | cons hr ht ih =>
    intro hnd
    simp only [List.map_cons]
    rw [rowFeatures_perm hr (hnd _ (by simp)), ih (fun r hrm => hnd r (by simp [hrm]))]

/-- The time-step computation depends on the row only through name-based
access. -/
theorem timeStepRow_congr {r r' : Row} (h : ∀ k, rowGet k r = rowGet k r') :
    timeStepRow r = timeStepRow r' := by
  unfold timeStepRow
  rw [h "YY", h "MM", h "DD", h "hh", h "mm"]

/-! ### Claim theorems -/

/-- C1 (counterexample): the "Unknown" fallback of the wave-hazard
classification is reachable, contradicting the claim that it is
unreachable: a predicted height of 5.5 ft (with period 8 s) falls in none
of the documented bands, because the band tests `<=5`, `6..8`, `9..11`,
`12..14`, `>=15` leave the open real gaps (5,6), (8,9), (11,12), (14,15)
uncovered. -/
theorem claim_C1_counterexample : waveAlert (11 / 2) 8 = "Unknown" := by
  norm_num [waveAlert]

/-- C1 (amended): the wave-hazard classification assigns exactly one
label to every (height, period) pair and the bands are mutually
exclusive, but it is not partition-complete: the "Unknown" fallback is
reached exactly when the height in feet lies strictly between 5 and 6,
8 and 9, 11 and 12, or 14 and 15; the documented example pairs behave as
specified. -/
theorem claim_C1_amended : ∀ h p : ℚ,
    (waveAlert h p = "Unknown" ↔
      (5 < h ∧ h < 6) ∨ (8 < h ∧ h < 9) ∨ (11 < h ∧ h < 12) ∨ (14 < h ∧ h < 15)) ∧
    waveAlert 7 9 = "Small craft caution (6-8 ft, period ≤9s)" ∧
    waveAlert 7 10 = "Waves normal (6-8 ft, period >9s)" := by
  intro h p
  refine ⟨?_, by decide, by decide⟩
  unfold waveAlert
  split_ifs with c1 c2 c3 c4 c5 c6 c7 c8 c9 c10 c11
  · exact iff_of_false (by decide)
      (by rintro (⟨u, v⟩ | ⟨u, v⟩ | ⟨u, v⟩ | ⟨u, v⟩) <;> linarith)
  · exact iff_of_false (by decide)
      (by rintro (⟨u, v⟩ | ⟨u, v⟩ | ⟨u, v⟩ | ⟨u, v⟩) <;> linarith [c2.1, c2.2])
  · exact iff_of_false (by decide)
      (by rintro (⟨u, v⟩ | ⟨u, v⟩ | ⟨u, v⟩ | ⟨u, v⟩) <;> linarith [c2.1, c2.2])
  · exact iff_of_false (by decide)
      (by rintro (⟨u, v⟩ | ⟨u, v⟩ | ⟨u, v⟩ | ⟨u, v⟩) <;> linarith [c4.1, c4.2])
  · exact iff_of_false (by decide)
      (by rintro (⟨u, v⟩ | ⟨u, v⟩ | ⟨u, v⟩ | ⟨u, v⟩) <;> linarith [c4.1, c4.2])
  · exact iff_of_false (by decide)
      (by rintro (⟨u, v⟩ | ⟨u, v⟩ | ⟨u, v⟩ | ⟨u, v⟩) <;> linarith [c4.1, c4.2])
  · exact iff_of_false (by decide)
      (by rintro (⟨u, v⟩ | ⟨u, v⟩ | ⟨u, v⟩ | ⟨u, v⟩) <;> linarith [c7.1, c7.2])
  · exact iff_of_false (by decide)
      (by rintro (⟨u, v⟩ | ⟨u, v⟩ | ⟨u, v⟩ | ⟨u, v⟩) <;> linarith [c7.1, c7.2])
  · exact iff_of_false (by decide)
      (by rintro (⟨u, v⟩ | ⟨u, v⟩ | ⟨u, v⟩ | ⟨u, v⟩) <;> linarith [c7.1, c7.2])
  · exact iff_of_false (by decide)
      (by rintro (⟨u, v⟩ | ⟨u, v⟩ | ⟨u, v⟩ | ⟨u, v⟩) <;> linarith [c10])
  · exact iff_of_false (by decide)
      (by rintro (⟨u, v⟩ | ⟨u, v⟩ | ⟨u, v⟩ | ⟨u, v⟩) <;> linarith [c10])
  · refine iff_of_true rfl ?_
    rcases not_and_or.mp c2 with u | u
    · exact Or.inl ⟨not_le.mp c1, not_le.mp u⟩
    · rcases not_and_or.mp c4 with v | v
      · exact Or.inr (Or.inl ⟨not_le.mp u, not_le.mp v⟩)
      · rcases not_and_or.mp c7 with w | w
        · exact Or.inr (Or.inr (Or.inl ⟨not_le.mp v, not_le.mp w⟩))
        · exact Or.inr (Or.inr (Or.inr ⟨not_le.mp w, not_le.mp c10⟩))

/-- C6: the wind-hazard thresholds are evaluated highest first and are
monotonic and exclusive: each label is produced exactly on its half-open
speed interval, and the documented examples (64 kt, 63.9 kt, 21.9 kt)
produce hurricane, storm and normal respectively. -/
theorem claim_C6_wind_thresholds : ∀ s : ℚ,
    ((windAlert s = windHurr ↔ 64 ≤ s) ∧
     (windAlert s = windStorm ↔ 48 ≤ s ∧ s < 64) ∧
     (windAlert s = windGale ↔ 34 ≤ s ∧ s < 48) ∧
     (windAlert s = windSCA ↔ 22 ≤ s ∧ s < 34) ∧
     (windAlert s = windNormalLabel ↔ s < 22)) ∧
    windAlert 64 = windHurr ∧
    windAlert (639 / 10) = windStorm ∧
    windAlert (219 / 10) = windNormalLabel := by
  intro s
  refine ⟨?_, by decide, by norm_num [windAlert, windHurr, windStorm],
    by norm_num [windAlert, windSCA, windNormalLabel]⟩
  unfold windAlert
  split_ifs with b1 b2 b3 b4
  · exact ⟨iff_of_true rfl b1,
      iff_of_false (by decide) (by rintro ⟨u, v⟩; linarith),
      iff_of_false (by decide) (by rintro ⟨u, v⟩; linarith),
      iff_of_false (by decide) (by rintro ⟨u, v⟩; linarith),
      iff_of_false (by decide) (by intro u; linarith)⟩
  · exact ⟨iff_of_false (by decide) b1,
      iff_of_true rfl ⟨b2, not_le.mp b1⟩,
      iff_of_false (by decide) (by rintro ⟨u, v⟩; linarith),
      iff_of_false (by decide) (by rintro ⟨u, v⟩; linarith),
      iff_of_false (by decide) (by intro u; linarith)⟩
  · exact ⟨iff_of_false (by decide) b1,
      iff_of_false (by decide) (by rintro ⟨u, v⟩; exact b2 u),
      iff_of_true rfl ⟨b3, not_le.mp b2⟩,
      iff_of_false (by decide) (by rintro ⟨u, v⟩; linarith),
      iff_of_false (by decide) (by intro u; linarith)⟩
  · exact ⟨iff_of_false (by decide) b1,
      iff_of_false (by decide) (by rintro ⟨u, v⟩; exact b2 u),
      iff_of_false (by decide) (by rintro ⟨u, v⟩; exact b3 u),
      iff_of_true rfl ⟨b4, not_le.mp b3⟩,
      iff_of_false (by decide) (by intro u; linarith)⟩
  · exact ⟨iff_of_false (by decide) b1,
      iff_of_false (by decide) (by rintro ⟨u, v⟩; exact b2 u),
      iff_of_false (by decide) (by rintro ⟨u, v⟩; exact b3 u),
      iff_of_false (by decide) (by rintro ⟨u, v⟩; exact b4 u),
      iff_of_true rfl (not_le.mp b4)⟩

/-- Every constant trace has zero variance, hence zero normalization
scale `4*std`. -/
theorem traceVariance_const (n : ℕ) (c : ℚ) : traceVariance (List.replicate n c) = 0 := by
  rcases Nat.eq_zero_or_pos n with hn | hn
  · subst hn
    simp [traceVariance, listMean]
  · have hne : (n : ℚ) ≠ 0 := Nat.cast_ne_zero.mpr (by omega)
    have hmean : listMean (List.replicate n c) = c := by
      simp only [listMean, List.sum_replicate, List.length_replicate, nsmul_eq_mul]
      exact mul_div_cancel_left₀ c hne
    simp [traceVariance, hmean, List.map_replicate, List.sum_replicate]

/-- C2 (code evaluated at the failing input, a constant all-zero
1536-sample trace): the rogue-wave script has no zero-scale check at all
— the computed variance (hence the scale `4*std`) is zero, NumPy's
division by zero does not raise, the non-finite values propagate through
predict and softmax, and the script prints a `nan` result line and exits
0 instead of failing with a reportable error. -/
theorem claim_C2_zero_variance_run :
    (∀ (n : ℕ) (c : ℚ), traceVariance (List.replicate n c) = 0) ∧
    rougeMain ⟨["predict.py", "buoy.npz"], .ok [("zdisp", List.replicate 1536 (0 : ℚ))],
        .ok (), (0, 0)⟩ =
      ⟨0, [rougeHeader, "nan,nan,non-rogue wave"], [], []⟩ := by
  refine ⟨fun n c => traceVariance_const n c, ?_⟩
  have hv := traceVariance_const 1536 (0 : ℚ)
  have hs : rougeSteps ⟨["predict.py", "buoy.npz"], .ok [("zdisp", List.replicate 1536 (0 : ℚ))],
      .ok (), (0, 0)⟩ = .result "nan,nan,non-rogue wave" := by
    simp only [rougeSteps, rougeLoad, selectTrace, npzGet, List.length_replicate, hv]
    norm_num
    exact fun hc => absurd hv hc
  simp only [rougeMain, hs]

/-- Every marine run either succeeds (exit 0, exactly the two stdout
lines, nothing on either error sink) or fails with exit 1, no stdout,
nothing on the real standard error, and exactly one diagnostic swallowed
by the `/dev/null` redirection. -/
theorem marineMain_shape (env : MarineEnv) :
    ((marineMain env).exitCode = 0 ∧ (marineMain env).stdout.length = 2 ∧
      (marineMain env).stderrLines = [] ∧ (marineMain env).nullSink = []) ∨
    ((marineMain env).exitCode = 1 ∧ (marineMain env).stdout = [] ∧
      (marineMain env).stderrLines = [] ∧ (marineMain env).nullSink.length = 1) := by
  unfold marineMain
  cases marinePipeline env with
  | error e => simp
  | ok line => simp

/-- Every rogue run either succeeds (exit 0, two stdout lines), fails the
argument check (exit 1 with the usage message on standard output), or
dies with an uncaught traceback (exit 1, empty stdout, one stderr
entry). -/
theorem rougeMain_shape (env : RougeEnv) :
    ((rougeMain env).exitCode = 0 ∧ (rougeMain env).stdout.length = 2 ∧
      (rougeMain env).stderrLines = [] ∧ (rougeMain env).nullSink = []) ∨
    ((rougeMain env).exitCode = 1 ∧ (rougeMain env).stdout = [rougeUsage] ∧
      (rougeMain env).stderrLines = [] ∧ (rougeMain env).nullSink = []) ∨
    ((rougeMain env).exitCode = 1 ∧ (rougeMain env).stdout = [] ∧
      (rougeMain env).stderrLines.length = 1 ∧ (rougeMain env).nullSink = []) := by
  unfold rougeMain
  cases rougeSteps env with
  | usage => simp
  | traceback e => simp
  | result line => simp

/-- C3 (counterexample): two concrete failing runs refute the claim as
stated — the rogue predictor's usage failure (exit 1) prints its message
to standard output, so a failing run does emit a stdout line; and the
marine predictor's usage failure (exit 1) writes its diagnostic only to
the redirected null device, so nothing is reported on the standard-error
channel. -/
theorem claim_C3_counterexample :
    rougeMain ⟨["predict.py"], .ok [], .ok (), (0, 0)⟩ = ⟨1, [rougeUsage], [], []⟩ ∧
    marineMain ⟨[], .ok (), .ok [], .ok (0, 0, 0)⟩ = ⟨1, [], [], [marineUsage]⟩ := by
  exact ⟨rfl, rfl⟩

/-- C3 (amended): every failing marine run emits no standard-output
lines and exits 1, but its diagnostic never reaches the real standard
error — the script redirects `sys.stderr` to `/dev/null` on entry, so
exactly one message lands in the null sink instead; marine stdout carries
lines (exactly two) only on a fully successful run.  For the rogue
script, a failing run either dies with a traceback on standard error and
empty stdout, or — for the usage failure — prints the usage message to
standard output before exiting 1. -/
theorem claim_C3_amended : ∀ (me : MarineEnv) (re : RougeEnv),
    ((marineMain me).exitCode = 1 →
      (marineMain me).stdout = [] ∧ (marineMain me).stderrLines = [] ∧
        (marineMain me).nullSink ≠ []) ∧
    ((marineMain me).exitCode = 0 → (marineMain me).stdout.length = 2) ∧
    ((rougeMain re).exitCode = 1 →
      (rougeMain re).stdout = [] ∨ (rougeMain re).stdout = [rougeUsage]) ∧
    ((rougeMain re).exitCode = 0 → (rougeMain re).stdout.length = 2) := by
  intro me re
  refine ⟨?_, ?_, ?_, ?_⟩
  · intro h1
    rcases marineMain_shape me with ⟨e0, _, _, _⟩ | ⟨_, s0, st, ns1⟩
    · rw [e0] at h1
      cases h1
    · refine ⟨s0, st, ?_⟩
      intro hc
      rw [hc] at ns1
      cases ns1
  · intro h0
    rcases marineMain_shape me with ⟨_, s2, _, _⟩ | ⟨e1, _, _, _⟩
    · exact s2
    · rw [e1] at h0
      cases h0
  · intro h1
    rcases rougeMain_shape re with ⟨e0, _, _, _⟩ | ⟨_, su, _, _⟩ | ⟨_, s0, _, _⟩
    · rw [e0] at h1
      cases h1
    · exact Or.inr su
    · exact Or.inl s0
  · intro h0
    rcases rougeMain_shape re with ⟨_, s2, _, _⟩ | ⟨e1, _, _, _⟩ | ⟨e1, _, _, _⟩
    · exact s2
    · rw [e1] at h0
      cases h0
    · rw [e1] at h0
      cases h0

/-- C3 (witness): concrete failing runs — the marine script invoked with
no arguments, the rogue script invoked with no path argument. -/
theorem claim_C3_witness :
    ((marineMain ⟨[], .ok (), .ok [], .ok (0, 0, 0)⟩).stdout = [] ∧
      (marineMain ⟨[], .ok (), .ok [], .ok (0, 0, 0)⟩).stderrLines = [] ∧
      (marineMain ⟨[], .ok (), .ok [], .ok (0, 0, 0)⟩).nullSink ≠ []) ∧
    ((rougeMain ⟨["predict.py"], .ok [], .ok (), (0, 0)⟩).stdout = [] ∨
      (rougeMain ⟨["predict.py"], .ok [], .ok (), (0, 0)⟩).stdout = [rougeUsage]) := by
  have h := claim_C3_amended ⟨[], .ok (), .ok [], .ok (0, 0, 0)⟩ ⟨["predict.py"], .ok [], .ok (), (0, 0)⟩
  exact ⟨h.1 rfl, h.2.2.1 rfl⟩

/-- C4 (counterexample): invoked with one extra argument, the rogue
script does not print a usage message and does not stop at the argument
check — `len(sys.argv) < 2` admits any surplus arguments, so it proceeds
to load the given path (here failing inside `np.load` with a traceback,
and with a readable container it would run to completion and print a
result). -/
theorem claim_C4_counterexample :
    (["predict.py", "wave.npz", "unexpected"] : List String).length = 3 ∧
    rougeMain ⟨["predict.py", "wave.npz", "unexpected"], .error "FileNotFoundError", .ok (), (0, 0)⟩ =
      ⟨1, [], ["Traceback (most recent call last): FileNotFoundError"], []⟩ := by
  exact ⟨rfl, rfl⟩

/-- C4 (amended): the marine script rejects any argument count other
than exactly one path (usage message — written to the redirected,
discarded stderr — and exit 1, producing no result); the rogue script
rejects only a missing argument (usage message printed to standard
output, exit 1) and silently ignores extra arguments. -/
theorem claim_C4_amended : ∀ (argv : List String) (ld : Except String Unit)
    (csv : Except String (List Row)) (pr : Except String (ℚ × ℚ × ℚ))
    (argvR : List String) (npz : Except String (List (String × List ℚ)))
    (ml : Except String Unit) (pb : ℚ × ℚ),
    (argv.length ≠ 2 → marineMain ⟨argv, ld, csv, pr⟩ = ⟨1, [], [], [marineUsage]⟩) ∧
    (argvR.length < 2 → rougeMain ⟨argvR, npz, ml, pb⟩ = ⟨1, [rougeUsage], [], []⟩) := by
  intro argv ld csv pr argvR npz ml pb
  constructor
  · intro h
    have hp : marinePipeline ⟨argv, ld, csv, pr⟩ = .error marineUsage := by
      simp only [marinePipeline]
      rw [if_pos h]
    simp [marineMain, hp]
  · intro h
    have hp : rougeSteps ⟨argvR, npz, ml, pb⟩ = .usage := by
      simp only [rougeSteps]
      rw [if_pos h]
    simp [rougeMain, hp]

/-- C4 (witness): concrete missing-argument invocations of both
scripts. -/
theorem claim_C4_witness :
    marineMain ⟨["predict.py"], .ok (), .ok [], .ok (0, 0, 0)⟩ = ⟨1, [], [], [marineUsage]⟩ ∧
    rougeMain ⟨["predict.py"], .ok [], .ok (), (0, 0)⟩ = ⟨1, [rougeUsage], [], []⟩ := by
  have h := claim_C4_amended ["predict.py"] (.ok ()) (.ok []) (.ok (0, 0, 0))
    ["predict.py"] (.ok []) (.ok ()) (0, 0)
  exact ⟨h.1 (by decide), h.2 (by decide)⟩

/-- C8: with fewer than 24 rows remaining after `dropna`, the marine run
is fatal with exit 1 and no output lines (the diagnostic goes to the
redirected stderr); with at least 24 remaining rows, the model window is
exactly the last 24 rows of the filtered frame in file order (a length-24
suffix). -/
theorem claim_C8_window : ∀ (rows : List Row) (pr : Except String (ℚ × ℚ × ℚ)) (a0 a1 : String),
    ((dropna rows).length < 24 →
      marineMain ⟨[a0, a1], .ok (), .ok rows, pr⟩ =
        ⟨1, [], [], ["data.csv must contain at least 24 rows"]⟩) ∧
    (24 ≤ (dropna rows).length →
      marineWindowRows rows = lastN 24 (dropna rows) ∧
      (marineWindowRows rows).length = 24 ∧
      marineWindowRows rows <:+ dropna rows) := by
  intro rows pr a0 a1
  constructor
  · intro hlt
    have e1 : marinePipeline ⟨[a0, a1], .ok (), .ok rows, pr⟩ = marineRows rows pr := by
      simp [marinePipeline, marineLoaded]
    have hp : marineRows rows pr = .error "data.csv must contain at least 24 rows" := by
      unfold marineRows
      rw [if_pos hlt]
    simp only [marineMain, e1, hp]
  · intro hge
    refine ⟨rfl, ?_, ?_⟩
    · simp only [marineWindowRows, lastN, List.length_drop]
      omega
    · exact List.drop_suffix _ _

/-- C8 (witness): an empty CSV (zero rows survive `dropna`) makes the
marine run fatal with the row-count diagnostic. -/
theorem claim_C8_witness :
    marineMain ⟨["predict.py", "data.csv"], .ok (), .ok [], .ok (0, 0, 0)⟩ =
      ⟨1, [], [], ["data.csv must contain at least 24 rows"]⟩ := by
  exact (claim_C8_window [] (.ok (0, 0, 0)) "predict.py" "data.csv").1 (by decide)

/-- C9 (counterexample): the last calendar slot `9999-12-31 23:45` is a
perfectly valid datetime, yet the 30-minute advance overflows the
supported range and the run is fatal — so "the run is fatal if the
fields do not form a valid date/time" and "every valid last row yields a
forecast 30 minutes later" both fail at this input. -/
theorem claim_C9_counterexample :
    pyDatetime 9999 12 31 23 45 = some ⟨9999, 12, 31, 23, 45⟩ ∧
    validDT ⟨9999, 12, 31, 23, 45⟩ = true ∧
    timeComp 9999 12 31 23 45 = .error "Time parsing failed: OverflowError" := by
  exact ⟨by decide, by decide, rfl⟩

/-- C9 (amended): invalid `YY/MM/DD/hh/mm` fields are fatal
(`ValueError`); for valid fields the forecast timestamp is the parsed
timestamp advanced by exactly 30 minutes on the absolute timeline — and
the result is again a valid datetime — except in the single overflow
slot at the very end of year 9999 (last row at 23:30 or later on
9999-12-31), where the addition itself is fatal (`OverflowError`). -/
theorem claim_C9_amended : ∀ Y M D H Mi : ℤ,
    (pyDatetime Y M D H Mi = none →
      timeComp Y M D H Mi = .error "Time parsing failed: ValueError") ∧
    (∀ dt, pyDatetime Y M D H Mi = some dt →
      (∀ r, addMinutes30 dt = some r →
        timeComp Y M D H Mi = .ok r ∧
        dtAbsMinutes r = dtAbsMinutes dt + 30 ∧ validDT r = true) ∧
      (addMinutes30 dt = none →
        timeComp Y M D H Mi = .error "Time parsing failed: OverflowError" ∧
        dt.y = 9999 ∧ dt.m = 12 ∧ dt.d = 31 ∧ dt.hh = 23 ∧ 30 ≤ dt.mi)) := by
  intro Y M D H Mi
  constructor
  · intro hn
    simp only [timeComp, hn]
  · intro dt hdt
    have hv := pyDatetime_valid Y M D H Mi dt hdt
    constructor
    · intro r hr
      refine ⟨?_, ?_, ?_⟩
      · simp only [timeComp, hdt, hr]
      · unfold addMinutes30 at hr
        split_ifs at hr with hy
        cases hr
        exact add30_abs dt hv
      · unfold addMinutes30 at hr
        split_ifs at hr with hy
        cases hr
        exact add30_valid dt hv hy
    · intro hnone
      refine ⟨?_, ?_⟩
      · simp only [timeComp, hdt, hnone]
      · unfold addMinutes30 at hnone
        split_ifs at hnone with hy
        obtain ⟨y, m, d, hh, mi⟩ := dt
        simp only [validDT, decide_eq_true_eq] at hv
        obtain ⟨h1, h2, h3, h4, h5, h6, h7, h8⟩ := hv
        simp only [add30] at hy
        split_ifs at hy with c1 c2 c3 c4
        · simp only [DTmk_y] at hy
          omega
        · simp only [DTmk_y] at hy
          omega
        · simp only [DTmk_y] at hy
          omega
        · simp only [DTmk_y] at hy
          omega
        · simp only [DTmk_y] at hy
          have hm12 : m = 12 := by omega
          subst hm12
          have hdim : daysInMonth (isLeap y) 12 = 31 := by cases isLeap y <;> rfl
          simp only [DTmk_y, DTmk_m, DTmk_d, DTmk_hh, DTmk_mi]
          refine ⟨by omega, by trivial, by omega, by omega, by omega⟩

/-- C9 (witness): the spec's example — a last row stamped
2024-01-01 00:00 yields the forecast timestamp 2024-01-01 00:30, exactly
30 minutes later on the absolute timeline. -/
theorem claim_C9_witness :
    timeComp 2024 1 1 0 0 = .ok ⟨2024, 1, 1, 0, 30⟩ ∧
    dtAbsMinutes ⟨2024, 1, 1, 0, 30⟩ = dtAbsMinutes ⟨2024, 1, 1, 0, 0⟩ + 30 := by
  have h := ((claim_C9_amended 2024 1 1 0 0).2 ⟨2024, 1, 1, 0, 0⟩ (by decide)).1
    ⟨2024, 1, 1, 0, 30⟩ (by decide)
  exact ⟨h.1, h.2.1⟩

/-- C10: the marine predictor's result is unchanged under permutation of
the CSV's columns, because `dropna` inspects every column of a row for a
missing value (before the 24-row check) while all later access — the 19
feature columns, the five timestamp fields and the station id — selects
by column name.  Rows are modelled as name–value cell lists; a column
permutation permutes every row the same way, so any row-wise permutation
(with distinct column names) is covered. -/
theorem claim_C10_column_perm : ∀ (argv : List String) (ld : Except String Unit)
    (pr : Except String (ℚ × ℚ × ℚ)) (rows₁ rows₂ : List Row),
    List.Forall₂ (fun a b => a.Perm b) rows₁ rows₂ →
    (∀ r ∈ rows₁, (r.map Prod.fst).Nodup) →
    marineMain ⟨argv, ld, .ok rows₁, pr⟩ = marineMain ⟨argv, ld, .ok rows₂, pr⟩ := by
  intro argv ld pr rows₁ rows₂ hperm hnd
  suffices h : marinePipeline ⟨argv, ld, .ok rows₁, pr⟩ = marinePipeline ⟨argv, ld, .ok rows₂, pr⟩ by
    unfold marineMain
    rw [h]
  simp only [marinePipeline]
  by_cases hargv : argv.length ≠ 2
  · rw [if_pos hargv, if_pos hargv]
  · rw [if_neg hargv, if_neg hargv]
    cases ld with
    | error e => rfl
    | ok u =>
      simp only [marineLoaded]
      have hdrop := forall2_perm_dropna hperm
      have hlen : (dropna rows₁).length = (dropna rows₂).length := hdrop.length_eq
      have hnd' : ∀ r ∈ dropna rows₁, (r.map Prod.fst).Nodup := by
        intro r hr
        unfold dropna at hr
        exact hnd r (List.mem_of_mem_filter hr)
      have hwin : List.Forall₂ (fun a b => a.Perm b)
          (marineWindowRows rows₁) (marineWindowRows rows₂) := by
        unfold marineWindowRows lastN
        rw [hlen]
        exact forall2_dropN _ hdrop
      have hndw : ∀ r ∈ marineWindowRows rows₁, (r.map Prod.fst).Nodup := by
        intro r hr
        apply hnd'
        unfold marineWindowRows lastN at hr
        exact List.drop_subset _ _ hr
      have hmat : windowMatrix rows₁ = windowMatrix rows₂ := by
        unfold windowMatrix
        rw [map_rowFeatures_perm hwin hndw]
      unfold marineRows
      rw [hlen, hmat]
      rcases forall2_getLast hdrop with ⟨h1, h2⟩ | ⟨x, y, hx, hy, hR, hmem⟩
      · rw [h1, h2]
      · have hfin : ∀ w1 w2 w3 : ℚ, marineFinish w1 w2 w3 x = marineFinish w1 w2 w3 y := by
          intro w1 w2 w3
          have hget : ∀ k, rowGet k x = rowGet k y :=
            fun k => rowGet_perm k hR (hnd' x hmem)
          unfold marineFinish
          rw [timeStepRow_congr hget, hget "station"]
        rw [hx, hy]
        simp only [hfin]

/-- C10 (witness): a one-row CSV and its column-swapped version give the
same run result. -/
theorem claim_C10_witness :
    marineMain ⟨["predict.py", "data.csv"], .ok (),
        .ok [[("YY", some 1), ("MM", some 2)]], .ok (0, 0, 0)⟩ =
      marineMain ⟨["predict.py", "data.csv"], .ok (),
        .ok [[("MM", some 2), ("YY", some 1)]], .ok (0, 0, 0)⟩ := by
  apply claim_C10_column_perm
  · exact List.Forall₂.cons (List.Perm.swap ("MM", some 2) ("YY", some 1) []) List.Forall₂.nil
  · intro r hr
    simp only [List.mem_singleton] at hr
    subst hr
    decide

/-- C5: the advisory derivation is exactly the documented precedence:
DANGER iff the wave label contains "Hazardous" or the wind label is the
hurricane/storm/gale warning; otherwise CAUTION iff the wave label
contains "Small craft caution" or the wind label is the small-craft
advisory; otherwise SAFE — and in particular each hazardous wave label
combined with the normal wind label yields DANGER. -/
theorem claim_C5_advisory : ∀ h p s : ℚ,
    (advice (waveAlert h p) (windAlert s) = adviceDanger ↔
      (strHasSub (waveAlert h p) "Hazardous" = true ∨ windAlert s = windHurr ∨
        windAlert s = windStorm ∨ windAlert s = windGale)) ∧
    (advice (waveAlert h p) (windAlert s) = adviceCaution ↔
      (¬(strHasSub (waveAlert h p) "Hazardous" = true ∨ windAlert s = windHurr ∨
          windAlert s = windStorm ∨ windAlert s = windGale) ∧
        (strHasSub (waveAlert h p) "Small craft caution" = true ∨ windAlert s = windSCA))) ∧
    (advice (waveAlert h p) (windAlert s) = adviceSafe ↔
      (¬(strHasSub (waveAlert h p) "Hazardous" = true ∨ windAlert s = windHurr ∨
          windAlert s = windStorm ∨ windAlert s = windGale) ∧
        ¬(strHasSub (waveAlert h p) "Small craft caution" = true ∨ windAlert s = windSCA))) ∧
    advice "Hazardous seas (9-11 ft, period ≤9s)" windNormalLabel = adviceDanger ∧
    advice "Hazardous seas (12-14 ft, period ≤11s)" windNormalLabel = adviceDanger ∧
    advice "Hazardous seas (>=15 ft, period ≤12s)" windNormalLabel = adviceDanger := by
  intro h p s
  unfold waveAlert windAlert
  split_ifs <;> decide

/-- C7: the two softmax probabilities of the raw class scores sum to
exactly 1 in real arithmetic, and the printed label is the class with
the higher probability, a tie (equal scores) resolving to index 0
(non-rogue) because `argmax` picks the first maximal index. -/
theorem claim_C7_softmax : ∀ a b : ℝ,
    (softmaxProbs a b).1 + (softmaxProbs a b).2 = 1 ∧
    (waveTypeStr a b = "rogue wave" ↔ a < b) ∧
    (waveTypeStr a b = "non-rogue wave" ↔ b ≤ a) := by
  intro a b
  have hpos : (0 : ℝ) < Real.exp a + Real.exp b := by positivity
  have hsum : (softmaxProbs a b).1 + (softmaxProbs a b).2 = 1 := by
    simp only [softmaxProbs]
    rw [div_add_div_same, div_self (ne_of_gt hpos)]
  have hlt : ((softmaxProbs a b).1 < (softmaxProbs a b).2) ↔ a < b := by
    simp only [softmaxProbs]
    rw [div_lt_div_iff_of_pos_right hpos, Real.exp_lt_exp]
  refine ⟨hsum, ?_, ?_⟩
  · by_cases hab : a < b
    · have hp : (softmaxProbs a b).1 < (softmaxProbs a b).2 := hlt.mpr hab
      simp only [waveTypeStr, waveTypeIdx, if_pos hp]
      norm_num
      exact hab
    · have hp : ¬((softmaxProbs a b).1 < (softmaxProbs a b).2) := fun hc => hab (hlt.mp hc)
      simp only [waveTypeStr, waveTypeIdx, if_neg hp]
      norm_num
      constructor
      · intro hc
        exact absurd hc (by decide)
      · intro hc
        exact absurd hc hab
  · by_cases hab : a < b
    · have hp : (softmaxProbs a b).1 < (softmaxProbs a b).2 := hlt.mpr hab
      simp only [waveTypeStr, waveTypeIdx, if_pos hp]
      norm_num
      constructor
      · intro hc
        exact absurd hc (by decide)
      · intro hc
        exact absurd hab (not_lt.mpr hc)
    · have hp : ¬((softmaxProbs a b).1 < (softmaxProbs a b).2) := fun hc => hab (hlt.mp hc)
      simp only [waveTypeStr, waveTypeIdx, if_neg hp]
      norm_num
      exact not_lt.mp hab
